import Mathlib

/-!
Verification of the NLP core of the agri-ai-agent repository
(`src/agri_ai/nlp/agricultural_glossary.py`, `context_manager.py`,
`report_parser.py`) against its natural-language specification.

Modelling conventions:
* Python `str` is modelled as `List Char` (`Str`); Lean `Char` is a Unicode
  scalar value, matching Python's code-point view of strings.
* The Python `re` regular-expression calls are modelled by a small
  backtracking engine (`rxm` below) with Python's semantics: leftmost
  search, alternation tries alternatives left to right, `?`/`*`/`+` are
  greedy, `+?` is lazy, numbered groups capture the last successful span.
  The character class `\d` is modelled as the ASCII digits and `str.lower`
  as ASCII lowercasing: every pattern and dictionary entry in the source
  only contains ASCII letters/digits and Japanese characters, which these
  restrictions treat exactly as Python does.
* `datetime.now()` is modelled by explicit parameters: a `Clock` record
  carrying the rendered today/yesterday/tomorrow ISO dates and the current
  year, and plain `Nat`/`String` timestamps for the context store.
* Python floats in the confidence computation are modelled as exact
  rationals (`ℚ`); all constants involved (2.0, 1.5, 1.0, 0.5, 0.2, 10.0)
  and the claims about them are about the decimal arithmetic.
-/

/-- Python strings viewed as lists of code points. -/
abbrev Str := List Char

/-- Whitespace as recognised by Python `str.split`/`str.strip`/regex `\s`
(ASCII whitespace plus the ideographic space, the only whitespace
characters that occur in this code base's data). -/
def pyIsSpace (c : Char) : Bool :=
  c = ' ' || c = '\t' || c = '\n' || c = '\r' || c = '\u000B' || c = '\u000C' || c = '　'

/-- ASCII lowercasing, modelling Python `str.lower` on the data used here. -/
def asciiLower (c : Char) : Char :=
  if 'A' ≤ c ∧ c ≤ 'Z' then Char.ofNat (c.toNat + 32) else c

/-- Models `str.lower`. -/
def lowerStr (s : Str) : Str := s.map asciiLower

/-- Models `str.strip()`. -/
def pyStrip (s : Str) : Str :=
  ((s.dropWhile pyIsSpace).reverse.dropWhile pyIsSpace).reverse

/-- Python's substring test `needle in hay`. -/
def strContains : Str → Str → Bool
  | hay, needle =>
    if needle.isPrefixOf hay then true
    else
      match hay with
      | [] => false
      | _ :: rest => strContains rest needle

/-- Auxiliary accumulator for `pySplit`. -/
def pySplitAux : Str → Str → List Str
  | [], acc => if acc.isEmpty then [] else [acc.reverse]
  | c :: cs, acc =>
    if pyIsSpace c then
      if acc.isEmpty then pySplitAux cs [] else acc.reverse :: pySplitAux cs []
    else
      pySplitAux cs (c :: acc)

/-- Python `str.split()` (split on whitespace runs, no empty tokens). -/
def pySplit (s : Str) : List Str := pySplitAux s []

/-- Python `str.replace(old, new)`: replace all non-overlapping occurrences
left to right.  The callers in this code base only pass non-empty `old`
(whitespace-split tokens); for `old = []` we return the string unchanged. -/
def pyReplaceF : Nat → Str → Str → Str → Str
  | 0, s, _, _ => s
  | _ + 1, s, [], _ => s
  | _ + 1, [], _ :: _, _ => []
  | fuel + 1, c :: cs, o :: os, new =>
    if (o :: os).isPrefixOf (c :: cs) then
      new ++ pyReplaceF fuel ((c :: cs).drop (o :: os).length) (o :: os) new
    else
      c :: pyReplaceF fuel cs (o :: os) new

/-- Models `str.replace` at sufficient fuel (every step shortens the string, so
`length` fuel always suffices). -/
def pyReplace (s old new : Str) : Str := pyReplaceF s.length s old new

/-- Character classes occurring in the source's regular expressions. -/
inductive CharCls where
  | digit
  | space
  | notSpace
  | dot
  | upperAZ
  | anyOf (s : String)
deriving DecidableEq

/-- Whether a character belongs to a class (`\d`, `\s`, `[^\s]`, `.`,
`[A-Z]`, or an explicit character set). -/
def clsMatch (cl : CharCls) (c : Char) : Bool :=
  match cl with
  | .digit => '0' ≤ c && c ≤ '9'
  | .space => pyIsSpace c
  | .notSpace => !(pyIsSpace c)
  | .dot => c ≠ '\n'
  | .upperAZ => 'A' ≤ c && c ≤ 'Z'
  | .anyOf s => s.data.contains c

/-- Abstract syntax of the regular expressions used by the source. -/
inductive Rx where
  | eps
  | lit (s : String)
  | cls (c : CharCls)
  | cat (a b : Rx)
  | alt (a b : Rx)
  | opt (a : Rx)
  | star (a : Rx)
  | plusG (a : Rx)
  | plusL (a : Rx)
  | grp (i : Nat) (a : Rx)
deriving DecidableEq

/-- Case-sensitive or case-insensitive character comparison
(`re.IGNORECASE` folds ASCII letters). -/
def chEq (ci : Bool) (a b : Char) : Bool :=
  a = b || (ci && asciiLower a = asciiLower b)

/-- Try to consume a literal from the front of the input. -/
def litMatch (ci : Bool) : Str → Str → Option Str
  | [], inp => some inp
  | _ :: _, [] => none
  | p :: ps, c :: cs => if chEq ci p c then litMatch ci ps cs else none

/-- Capture store: group index ↦ most recently captured span. -/
abbrev Caps := List (Nat × Str)

/-- Record a capture, overwriting a previous capture of the same group. -/
def setCap (i : Nat) (v : Str) : Caps → Caps
  | [] => [(i, v)]
  | (j, w) :: rest => if i = j then (i, v) :: rest else (j, w) :: setCap i v rest

/-- Look up a capture group. -/
def getCap (caps : Caps) (i : Nat) : Option Str :=
  (caps.find? (fun p => p.1 = i)).map (·.2)

/-- Backtracking matcher in continuation-passing style, implementing
Python `re` semantics at a fixed position: the continuation receives the
remaining input and captures; the first success in Python's backtracking
order wins.  This is one fuel level: structural recursion over the
pattern, with `recur` re-entering the whole matcher (one fuel level down,
via `rxm`) for the loop-back of `*`/`+`, which is taken only after
consuming at least one character. -/
def rxmGo (ci : Bool)
    (recur : Rx → Str → Caps → (Str → Caps → Option (Str × Caps)) → Option (Str × Caps)) :
    Rx → Str → Caps → (Str → Caps → Option (Str × Caps)) → Option (Str × Caps)
  | .eps, inp, caps, k => k inp caps
  | .lit s, inp, caps, k =>
    match litMatch ci s.data inp with
    | some rest => k rest caps
    | none => none
  | .cls cl, inp, caps, k =>
    match inp with
    | [] => none
    | c :: rest => if clsMatch cl c then k rest caps else none
  | .cat a b, inp, caps, k =>
    rxmGo ci recur a inp caps (fun rest caps1 => rxmGo ci recur b rest caps1 k)
  | .alt a b, inp, caps, k =>
    (rxmGo ci recur a inp caps k).orElse (fun _ => rxmGo ci recur b inp caps k)
  | .opt a, inp, caps, k =>
    (rxmGo ci recur a inp caps k).orElse (fun _ => k inp caps)
  | .star a, inp, caps, k =>
    (rxmGo ci recur a inp caps (fun rest caps1 =>
      if rest.length = inp.length then none
      else recur (.star a) rest caps1 k)).orElse (fun _ => k inp caps)
  | .plusG a, inp, caps, k =>
    rxmGo ci recur a inp caps (fun rest caps1 =>
      if rest.length = inp.length then k rest caps1
      else (recur (.plusG a) rest caps1 k).orElse (fun _ => k rest caps1))
  | .plusL a, inp, caps, k =>
    rxmGo ci recur a inp caps (fun rest caps1 =>
      if rest.length = inp.length then k rest caps1
      else (k rest caps1).orElse (fun _ => recur (.plusL a) rest caps1 k))
  | .grp i a, inp, caps, k =>
    rxmGo ci recur a inp caps (fun rest caps1 =>
      k rest (setCap i (inp.take (inp.length - rest.length)) caps1))

/-- The matcher with its loop fuel; every loop iteration of `*`/`+` must
consume input, so `length input + 1` fuel is always sufficient. -/
def rxm (ci : Bool) :
    Nat → Rx → Str → Caps → (Str → Caps → Option (Str × Caps)) → Option (Str × Caps)
  | 0, _, _, _, _ => none
  | fuel + 1, r, inp, caps, k => rxmGo ci (rxm ci fuel) r inp caps k

/-- Match attempt anchored at the start of `inp`; returns the matched
length and the captures on success. -/
def rxMatchHere (ci : Bool) (r : Rx) (inp : Str) : Option (Nat × Caps) :=
  match rxm ci (inp.length + 1) r inp [] (fun rest caps => some (rest, caps)) with
  | some (rest, caps) => some (inp.length - rest.length, caps)
  | none => none

/-- Models `re.search`: leftmost match; returns (start, length, captures). -/
def rxSearchAux (ci : Bool) (r : Rx) : Str → Nat → Option (Nat × Nat × Caps)
  | inp, pos =>
    match rxMatchHere ci r inp with
    | some (len, caps) => some (pos, len, caps)
    | none =>
      match inp with
      | [] => none
      | _ :: rest => rxSearchAux ci r rest (pos + 1)

/-- Models `re.search(r, s)`. -/
def rxSearch (ci : Bool) (r : Rx) (s : Str) : Option (Nat × Nat × Caps) :=
  rxSearchAux ci r s 0

/-- Group 1 of a search result (`match.group(1)`); all patterns in the
source that are read this way always bind group 1 on success. -/
def grp1 (m : Nat × Nat × Caps) : Str := (getCap m.2.2 1).getD []

/-- Group `i` of a search result. -/
def grpN (m : Nat × Nat × Caps) (i : Nat) : Str := (getCap m.2.2 i).getD []

/-- Replacement-template pieces (`\1` back-references and literal text). -/
inductive Tp where
  | ls (s : String)
  | gp (i : Nat)
deriving DecidableEq

/-- Render a replacement template against a capture store. -/
def rendTpl (caps : Caps) : List Tp → Str
  | [] => []
  | .ls s :: r => s.data ++ rendTpl caps r
  | .gp i :: r => (getCap caps i).getD [] ++ rendTpl caps r

/-- Models `re.sub(r, tpl, s)`: replace every non-overlapping occurrence, left to
right.  All substituted patterns in the source match at least one
character, so the zero-width guard is never taken. -/
def rxSubAllF (ci : Bool) (r : Rx) (tpl : List Tp) : Nat → Str → Str
  | 0, s => s
  | _ + 1, [] => []
  | fuel + 1, c :: rest =>
    match rxMatchHere ci r (c :: rest) with
    | some (len, caps) =>
      if len = 0 then c :: rxSubAllF ci r tpl fuel rest
      else rendTpl caps tpl ++ rxSubAllF ci r tpl fuel ((c :: rest).drop len)
    | none => c :: rxSubAllF ci r tpl fuel rest

/-- Models `re.sub` at sufficient fuel (every step shortens the string). -/
def rxSubAll (ci : Bool) (r : Rx) (tpl : List Tp) (s : Str) : Str :=
  rxSubAllF ci r tpl s.length s

/-- Models `re.finditer(r, s)`: all non-overlapping matches left to right, each
as (whole match, captures). -/
def rxFindAllF (ci : Bool) (r : Rx) : Nat → Str → List (Str × Caps)
  | 0, _ => []
  | _ + 1, [] => []
  | fuel + 1, c :: rest =>
    match rxMatchHere ci r (c :: rest) with
    | some (len, caps) =>
      if len = 0 then rxFindAllF ci r fuel rest
      else ((c :: rest).take len, caps) :: rxFindAllF ci r fuel ((c :: rest).drop len)
    | none => rxFindAllF ci r fuel rest

/-- Models `re.finditer` at sufficient fuel (every step shortens the string). -/
def rxFindAll (ci : Bool) (r : Rx) (s : Str) : List (Str × Caps) :=
  rxFindAllF ci r s.length s

/-- Right-nested concatenation of a pattern list. -/
def rcats : List Rx → Rx
  | [] => .eps
  | [r] => r
  | r :: rs => .cat r (rcats rs)

/-- Right-nested alternation of a pattern list (left alternative first,
as Python tries them). -/
def ralts : List Rx → Rx
  | [] => .eps
  | [r] => r
  | r :: rs => .alt r (ralts rs)

/-- Alternation of literal strings, e.g. `(?:完了|終了|…)`. -/
def rlits (ss : List String) : Rx := ralts (ss.map .lit)

/-- Models `\d{1,2}` (greedy). -/
def rxD12 : Rx := .cat (.cls .digit) (.opt (.cls .digit))

/-- Models `\d{4}`. -/
def rxD4 : Rx := rcats [.cls .digit, .cls .digit, .cls .digit, .cls .digit]

/-- Models `\d{1,2}:\d{2}`. -/
def rxHM : Rx := rcats [rxD12, .lit ":", .cls .digit, .cls .digit]

/-- Models `(\d+(?:\.\d+)?)` without the group: a decimal number. -/
def rxNum : Rx := .cat (.plusG (.cls .digit)) (.opt (.cat (.lit ".") (.plusG (.cls .digit))))

/-- Models `\s*`. -/
def rxWS : Rx := .star (.cls .space)

/-- Parse a run of ASCII digits as a number (Python `int` on a `\d+`
capture). -/
def digitsToNat (s : Str) : Nat :=
  s.foldl (fun a c => a * 10 + (c.toNat - '0'.toNat)) 0

/-- Python `f"{n:02d}"`. -/
def pad2 (n : Nat) : String :=
  if n < 10 then "0" ++ toString n else toString n

namespace AgriculturalGlossary

/-- Models `self.crop_synonyms` (insertion order preserved, as in a Python dict). -/
def crop_synonyms : List (String × List String) := [
  ("大豆", ["だいず", "ダイズ", "soybean", "soybeans"]),
  ("ブロッコリー", ["ブロッコリ", "broccoli"]),
  ("キャベツ", ["cabbage", "きゃべつ"]),
  ("トマト", ["tomato", "とまと"]),
  ("きゅうり", ["cucumber", "キュウリ", "胡瓜"]),
  ("なす", ["eggplant", "ナス", "茄子"]),
  ("ピーマン", ["pepper", "ピーマン"]),
  ("レタス", ["lettuce", "れたす"])]

/-- Models `self.task_synonyms`. -/
def task_synonyms : List (String × List String) := [
  ("播種", ["はしゅ", "種まき", "タネまき", "seeding", "sowing"]),
  ("定植", ["ていしょく", "植え付け", "transplanting"]),
  ("防除", ["ぼうじょ", "農薬散布", "薬剤散布", "pest control"]),
  ("収穫", ["しゅうかく", "harvest", "harvesting"]),
  ("施肥", ["せひ", "肥料やり", "fertilizing"]),
  ("除草", ["じょそう", "草取り", "weeding"]),
  ("畝立て", ["うねたて", "畝作り", "ridging"]),
  ("耕耘", ["こううん", "耕起", "tillage"]),
  ("灌水", ["かんすい", "水やり", "irrigation"]),
  ("剪定", ["せんてい", "枝切り", "pruning"])]

/-- Models `self.material_synonyms`. -/
def material_synonyms : List (String × List String) := [
  ("農薬", ["のうやく", "薬剤", "pesticide", "chemical"]),
  ("肥料", ["ひりょう", "fertilizer"]),
  ("種子", ["しゅし", "タネ", "seed", "seeds"]),
  ("苗", ["なえ", "seedling", "seedlings"]),
  ("マルチ", ["マルチフィルム", "mulch", "mulching"])]

/-- Shared body of the four `normalize_*` scanners: strip the input, then
scan the table in declaration order and return the first canonical term
one of whose synonyms occurs in the lowercased stripped input; otherwise
return the stripped input. -/
def synLookup (table : List (String × List String)) (text : String) : String :=
  let t := pyStrip text.data
  match table.find? (fun p => p.2.any (fun syn => strContains (lowerStr t) syn.data)) with
  | some p => p.1
  | none => ⟨t⟩

/-- Models `AgriculturalGlossary.normalize_crop_name`. -/
def normalize_crop_name (text : String) : String := synLookup crop_synonyms text

/-- Models `AgriculturalGlossary.normalize_task_name`. -/
def normalize_task_name (text : String) : String := synLookup task_synonyms text

/-- Models `AgriculturalGlossary.normalize_material_name`. -/
def normalize_material_name (text : String) : String := synLookup material_synonyms text

/-- Models `self.unit_patterns`, flattened in application order
(面積, 容量, 重量), as (pattern, replacement template) pairs. -/
def unit_patterns : List (Rx × List Tp) := [
  (rcats [.grp 1 rxNum, rxWS, rlits ["ha", "ヘクタール", "ヘクター"]], [.gp 1, .ls " ha"]),
  (rcats [.grp 1 rxNum, rxWS, rlits ["a", "アール"]], [.gp 1, .ls " a"]),
  (rcats [.grp 1 rxNum, rxWS, rlits ["㎡", "平方メートル", "平米"]], [.gp 1, .ls " ㎡"]),
  (rcats [.grp 1 rxNum, rxWS, rlits ["L", "リットル", "ℓ"]], [.gp 1, .ls " L"]),
  (rcats [.grp 1 rxNum, rxWS, rlits ["ml", "mL", "ミリリットル"]], [.gp 1, .ls " ml"]),
  (rcats [.grp 1 rxNum, rxWS, .lit "cc"], [.gp 1, .ls " cc"]),
  (rcats [.grp 1 rxNum, rxWS, rlits ["kg", "キログラム", "キロ"]], [.gp 1, .ls " kg"]),
  (rcats [.grp 1 rxNum, rxWS, rlits ["g", "グラム"]], [.gp 1, .ls " g"]),
  (rcats [.grp 1 rxNum, rxWS, rlits ["t", "トン"]], [.gp 1, .ls " t"])]

/-- Models `AgriculturalGlossary.normalize_units` (each substitution applied
globally with `re.IGNORECASE`, in declaration order). -/
def normalize_units (text : String) : String :=
  ⟨unit_patterns.foldl (fun acc p => rxSubAll true p.1 p.2 acc) text.data⟩

/-- Models `self.time_patterns`. -/
def time_patterns : List (Rx × List Tp) := [
  (rcats [.grp 1 rxD12, rxWS, .lit "時", rxWS, .grp 2 rxD12, rxWS, .lit "分"],
    [.gp 1, .ls ":", .gp 2]),
  (rcats [.grp 1 rxD12, rxWS, .lit "時"], [.gp 1, .ls ":00"]),
  (rcats [.lit "午前", rxWS, .grp 1 rxHM], [.gp 1, .ls " AM"]),
  (rcats [.lit "午後", rxWS, .grp 1 rxHM], [.gp 1, .ls " PM"])]

/-- Models `AgriculturalGlossary.normalize_time`. -/
def normalize_time (text : String) : String :=
  ⟨time_patterns.foldl (fun acc p => rxSubAll true p.1 p.2 acc) text.data⟩

/-- Models `self.dilution_patterns`. -/
def dilution_patterns : List (Rx × List Tp) := [
  (rcats [.grp 1 (.plusG (.cls .digit)), rxWS, .lit "倍"], [.gp 1, .ls "倍"]),
  (rcats [.grp 1 (.plusG (.cls .digit)), rxWS, rlits ["倍希釈", "倍に希釈"]], [.gp 1, .ls "倍"]),
  (rcats [.grp 1 (.plusG (.cls .digit)), rxWS, rlits ["分の1", "/1"]], [.gp 1, .ls "倍"])]

/-- Models `AgriculturalGlossary.normalize_dilution`. -/
def normalize_dilution (text : String) : String :=
  ⟨dilution_patterns.foldl (fun acc p => rxSubAll true p.1 p.2 acc) text.data⟩

/-- Models `field_patterns` of `AgriculturalGlossary.extract_field_name`. -/
def field_patterns : List Rx := [
  .grp 1 (.cat (.plusG (.cls .notSpace)) (rlits ["圃場", "畑", "ハウス", "温室"])),
  .grp 1 (.cat (.cls .upperAZ) (.plusG (.cls .digit))),
  .grp 1 (.cat (.plusG (.cls .notSpace)) (rlits ["家裏", "家前", "横", "北", "南", "東", "西"])),
  .grp 1 (.cat (.lit "鵡川") (.star (.cls .notSpace))),
  .grp 1 (.cat (.lit "豊糠") (.star (.cls .notSpace)))]

/-- Models `AgriculturalGlossary.extract_field_name`: first pattern (in declared
order) that matches anywhere wins; returns `match.group(1).strip()`. -/
def extract_field_name (text : String) : Option String :=
  field_patterns.findSome? (fun p =>
    (rxSearch false p text.data).map (fun m => (⟨pyStrip (grp1 m)⟩ : String)))

/-- One extracted quantity: `{value, unit, normalized}`. -/
structure Quantity where
  value : String
  unit : String
  normalized : String
deriving DecidableEq

/-- The area-category quantity pattern of `extract_quantities`. -/
def areaQuantityRx : Rx :=
  rcats [.grp 1 rxNum, rxWS,
    .grp 2 (rlits ["ha", "ヘクタール", "a", "アール", "㎡", "平方メートル", "平米"])]

/-- The volume-category quantity pattern. -/
def volumeQuantityRx : Rx :=
  rcats [.grp 1 rxNum, rxWS, .grp 2 (rlits ["L", "リットル", "ml", "mL", "ミリリットル", "cc"])]

/-- The weight-category quantity pattern. -/
def weightQuantityRx : Rx :=
  rcats [.grp 1 rxNum, rxWS, .grp 2 (rlits ["kg", "キログラム", "キロ", "g", "グラム", "t", "トン"])]

/-- The dilution-ratio quantity pattern. -/
def dilutionQuantityRx : Rx :=
  rcats [.grp 1 (.plusG (.cls .digit)), rxWS, .grp 2 (rlits ["倍", "倍希釈"])]

/-- Models `quantity_patterns` of `extract_quantities`, in declaration order. -/
def quantity_patterns : List Rx :=
  [areaQuantityRx, volumeQuantityRx, weightQuantityRx, dilutionQuantityRx]

/-- The quantities one pattern contributes (`re.finditer` with
`re.IGNORECASE`, left to right). -/
def quantsOf (p : Rx) (text : Str) : List Quantity :=
  (rxFindAll true p text).map (fun m =>
    { value := ⟨(getCap m.2 1).getD []⟩,
      unit := ⟨(getCap m.2 2).getD []⟩,
      normalized := normalize_units ⟨m.1⟩ })

/-- Models `AgriculturalGlossary.extract_quantities`: patterns are scanned in
declaration order and all matches of one pattern are appended before the
next pattern is tried. -/
def extract_quantities (text : String) : List Quantity :=
  quantity_patterns.foldr (fun p acc => quantsOf p text.data ++ acc) []

/-- The per-token rewriting step of `comprehensive_normalize`: for one
whitespace token of the pre-normalized text, substitute its crop, task
and material normalizations into the accumulated string whenever they
differ from the token. -/
def cnStep (acc : Str) (w : Str) : Str :=
  let c := (normalize_crop_name ⟨w⟩).data
  let acc1 := if c ≠ w then pyReplace acc w c else acc
  let t := (normalize_task_name ⟨w⟩).data
  let acc2 := if t ≠ w then pyReplace acc1 w t else acc1
  let m := (normalize_material_name ⟨w⟩).data
  if m ≠ w then pyReplace acc2 w m else acc2

/-- Models `AgriculturalGlossary.comprehensive_normalize`: strip, then unit, time
and dilution normalization, then per-token dictionary substitution (the
token list is computed once, while the string is rewritten in place). -/
def comprehensive_normalize (text : String) : String :=
  let n0 := pyStrip text.data
  let n1 := (normalize_units ⟨n0⟩).data
  let n2 := (normalize_time ⟨n1⟩).data
  let n3 := (normalize_dilution ⟨n2⟩).data
  ⟨(pySplit n3).foldl cnStep n3⟩

end AgriculturalGlossary

/-- The ambient wall clock (`datetime.now()`), passed explicitly: the
rendered ISO dates of yesterday/today/tomorrow and the current year. -/
structure Clock where
  todayISO : String
  yesterdayISO : String
  tomorrowISO : String
  year : Nat
deriving DecidableEq

/-- One entry of `recent_questions`: `{"question": ..., "timestamp": ...}`. -/
structure QEntry where
  question : String
  timestamp : String
deriving DecidableEq

/-- A Python string-keyed dict with insertion order (used for
`work_history` entries and the optional parse context). -/
abbrev PyDict := List (String × String)

/-- Python `d[k] = v`: overwrite in place if the key exists, else append. -/
def pyDictSet (d : PyDict) (k v : String) : PyDict :=
  if d.any (fun p => p.1 = k) then d.map (fun p => if p.1 = k then (k, v) else p)
  else d ++ [(k, v)]

/-- The `ConversationContext` dataclass.  `created_at`/`updated_at` are
abstract clock ticks (`Nat`). -/
structure ConversationContext where
  user_id : String
  current_task : Option String := none
  current_field : Option String := none
  current_crop : Option String := none
  working_date : Option String := none
  recent_questions : List QEntry := []
  preferences : PyDict := []
  work_history : List PyDict := []
  created_at : Nat
  updated_at : Nat
deriving DecidableEq

/-- The mutable state of a `ContextManager` instance: the per-user context
map (a Python dict keyed by user id) and the history bound. -/
structure ContextManager where
  max_history_size : Nat := 50
  contexts : String → Option ConversationContext := fun _ => none

/-- A fresh `ContextManager()` (default `max_history_size=50`). -/
def ContextManager.mk0 : ContextManager := {}

/-- Models `ContextManager.get_context`: get-or-create.  Returns the context
together with the (possibly extended) state; `now` stamps a newly created
context's `created_at`/`updated_at`. -/
def ContextManager.get_context (m : ContextManager) (user_id : String) (now : Nat) :
    ConversationContext × ContextManager :=
  match m.contexts user_id with
  | some c => (c, m)
  | none =>
    let c : ConversationContext := { user_id := user_id, created_at := now, updated_at := now }
    (c, { m with contexts := fun u => if u = user_id then some c else m.contexts u })

/-- Store a (mutated) context back under its user id. -/
def ContextManager.putCtx (m : ContextManager) (user_id : String) (c : ConversationContext) :
    ContextManager :=
  { m with contexts := fun u => if u = user_id then some c else m.contexts u }

/-- One keyword argument of `update_context(user_id, **kwargs)`.  There is
one constructor per settable attribute of `ConversationContext` (for which
`hasattr` is true) and one for any other keyword name (for which `hasattr`
is false and the argument is skipped).  A `user_id=` keyword cannot occur:
Python rejects the call itself (duplicate of the positional parameter)
before the method body runs. -/
inductive CtxAssign where
  | current_task (v : Option String)
  | current_field (v : Option String)
  | current_crop (v : Option String)
  | working_date (v : Option String)
  | recent_questions (v : List QEntry)
  | preferences (v : PyDict)
  | work_history (v : List PyDict)
  | created_at (v : Nat)
  | updated_at (v : Nat)
  | unknownAttr (name : String)
deriving DecidableEq

/-- Models `setattr(context, key, value)` for one keyword argument, guarded by
`hasattr` exactly as in `update_context`. -/
def setAttr (c : ConversationContext) : CtxAssign → ConversationContext
  | .current_task v => { c with current_task := v }
  | .current_field v => { c with current_field := v }
  | .current_crop v => { c with current_crop := v }
  | .working_date v => { c with working_date := v }
  | .recent_questions v => { c with recent_questions := v }
  | .preferences v => { c with preferences := v }
  | .work_history v => { c with work_history := v }
  | .created_at v => { c with created_at := v }
  | .updated_at v => { c with updated_at := v }
  | .unknownAttr _ => c

/-- Models `ContextManager.update_context`: set every provided keyword whose name
is an attribute, then stamp `updated_at`. -/
def ContextManager.update_context (m : ContextManager) (user_id : String) (now : Nat)
    (kwargs : List CtxAssign) : ContextManager :=
  let (c, m1) := m.get_context user_id now
  let c1 := kwargs.foldl setAttr c
  m1.putCtx user_id { c1 with updated_at := now }

/-- Python `lst[-n:]` (for `n = 0` Python yields the whole list). -/
def pyLastN (n : Nat) (l : List α) : List α :=
  if n = 0 then l else l.drop (l.length - n)

/-- Models `ContextManager.add_question_to_history`: append
`{"question": ..., "timestamp": now.isoformat()}` and truncate to the last
`max_history_size` entries when the bound is exceeded. -/
def ContextManager.add_question_to_history (m : ContextManager) (user_id : String)
    (now : Nat) (nowIso : String) (question : String) : ContextManager :=
  let (c, m1) := m.get_context user_id now
  let rq := c.recent_questions ++ [{ question := question, timestamp := nowIso }]
  let rq := if rq.length > m.max_history_size then pyLastN m.max_history_size rq else rq
  m1.putCtx user_id { c with recent_questions := rq, updated_at := now }

/-- Models `ContextManager.add_work_to_history`: append
`{**work_info, "timestamp": now.isoformat()}`, truncating like the
question history. -/
def ContextManager.add_work_to_history (m : ContextManager) (user_id : String)
    (now : Nat) (nowIso : String) (work_info : PyDict) : ContextManager :=
  let (c, m1) := m.get_context user_id now
  let wh := c.work_history ++ [pyDictSet work_info "timestamp" nowIso]
  let wh := if wh.length > m.max_history_size then pyLastN m.max_history_size wh else wh
  m1.putCtx user_id { c with work_history := wh, updated_at := now }

/-- Models `self.context_keywords["task_related"]`. -/
def task_related : List (String × List String) := [
  ("播種", ["種", "まく", "播く", "タネ", "seeding"]),
  ("防除", ["薬", "散布", "農薬", "防除", "pest"]),
  ("収穫", ["採る", "収穫", "取る", "harvest"]),
  ("施肥", ["肥料", "養分", "栄養", "fertilizer"]),
  ("除草", ["草", "雑草", "除草", "weed"]),
  ("耕耘", ["耕す", "耕転", "tillage"]),
  ("定植", ["植える", "定植", "transplant"])]

/-- Models `self.context_keywords["temporal"]`. -/
def temporal_keywords : List (String × List String) := [
  ("今日", ["今日", "きょう", "本日"]),
  ("昨日", ["昨日", "きのう"]),
  ("明日", ["明日", "あした", "あす"]),
  ("今週", ["今週", "こんしゅう"]),
  ("来週", ["来週", "らいしゅう"])]

/-- The `field_patterns` local to `infer_context_from_message`. -/
def cm_field_patterns : List Rx := [
  .grp 1 (.cat (.cls .upperAZ) (.plusG (.cls .digit))),
  .grp 1 (.cat (.plusG (.cls .notSpace)) (rlits ["圃場", "畑", "ハウス"])),
  .grp 1 (.cat (.plusG (.cls .notSpace)) (rlits ["家裏", "家前", "横", "北", "南", "東", "西"]))]

/-- The dict returned by `infer_context_from_message`; each field is
present iff the corresponding key was inserted. -/
structure Inferred where
  current_task : Option String := none
  working_date : Option String := none
  current_field : Option String := none
deriving DecidableEq

/-- Models `ContextManager.infer_context_from_message`.  The method also reads
(and thereby lazily creates) the user's context but never uses it, so the
returned dict depends only on the message and the clock; keyword scans use
the lowercased message, the field regexes the original message. -/
def ContextManager.infer_context_from_message (clock : Clock) (message : String) : Inferred :=
  let ml : String := ⟨lowerStr message.data⟩
  let task := (task_related.find? (fun p =>
    p.2.any (fun k => strContains ml.data k.data))).map (·.1)
  let wd :=
    match temporal_keywords.find? (fun p => p.2.any (fun k => strContains ml.data k.data)) with
    | some p =>
      if p.1 = "今日" then some clock.todayISO
      else if p.1 = "昨日" then some clock.yesterdayISO
      else if p.1 = "明日" then some clock.tomorrowISO
      else none
    | none => none
  let cf := cm_field_patterns.findSome? (fun p =>
    (rxSearch false p message.data).map (fun m => (⟨grp1 m⟩ : String)))
  { current_task := task, working_date := wd, current_field := cf }

/-- Models `self.ellipsis_patterns` (pronoun ↦ candidate context attribute
names). -/
def ellipsis_patterns : List (String × List String) := [
  ("それ", ["current_task", "current_field", "current_crop"]),
  ("あれ", ["recent_topic", "previous_subject"]),
  ("この", ["current_context"]),
  ("その", ["mentioned_item"]),
  ("どこ", ["current_field", "field_location"]),
  ("いつ", ["working_date", "schedule_time"]),
  ("誰", ["worker_name", "person_mentioned"])]

/-- Models `hasattr`/`getattr` for the attribute names that occur in
`ellipsis_patterns`: only the four slot attributes exist on
`ConversationContext`; every other listed name fails `hasattr`. -/
def ctxAttr (c : ConversationContext) : String → Option (Option String)
  | "current_task" => some c.current_task
  | "current_field" => some c.current_field
  | "current_crop" => some c.current_crop
  | "working_date" => some c.working_date
  | _ => none

/-- Models `ContextManager.resolve_ellipsis`: for each pronoun present in the
original message, substitute the first existing, truthy slot among its
candidates; then, if the message mentions それ/あれ and there is a recent
question and an active task, substitute the task for それ and あれ. -/
def ContextManager.resolve_ellipsis (m : ContextManager) (user_id : String) (now : Nat)
    (message : String) : String :=
  let (c, _) := m.get_context user_id now
  let resolved := ellipsis_patterns.foldl (fun acc p =>
    if strContains message.data p.1.data then
      match p.2.findSome? (fun key =>
        match ctxAttr c key with
        | some (some v) => if v = "" then none else some v
        | _ => none) with
      | some v => pyReplace acc p.1.data v.data
      | none => acc
    else acc) message.data
  let resolved :=
    if strContains message.data "それ".data || strContains message.data "あれ".data then
      if c.recent_questions ≠ [] then
        match c.current_task with
        | some task =>
          if task ≠ "" then
            pyReplace (pyReplace resolved "それ".data task.data) "あれ".data task.data
          else resolved
        | none => resolved
      else resolved
    else resolved
  ⟨resolved⟩

namespace WorkReport

/-- One entry of `materials_used`. -/
structure Material where
  name : String
  original_name : String
  dilution : Option String
deriving DecidableEq

/-- The `ParsedWorkReport` dataclass (confidence as an exact rational). -/
structure ParsedWorkReport where
  task_name : Option String := none
  field_name : Option String := none
  crop_name : Option String := none
  worker_name : Option String := none
  completion_status : Option String := none
  work_date : Option String := none
  start_time : Option String := none
  end_time : Option String := none
  materials_used : List Material := []
  quantity_applied : Option String := none
  weather_condition : Option String := none
  notes : Option String := none
  next_task_suggestion : Option String := none
  confidence_score : ℚ := 0
deriving DecidableEq

/-- Models `report_patterns["completion"]`. -/
def completion_patterns : List Rx := [
  rcats [.grp 1 (.plusL (.cls .dot)), .opt (rlits ["を", "の"]),
    rlits ["完了", "終了", "終わり", "できた", "やった", "実施した", "行った"]],
  rcats [.grp 1 (.plusL (.cls .dot)), .opt (rlits ["が", "は"]),
    rlits ["完了", "終了", "終わり", "できた", "やった", "実施した", "行った"]],
  rcats [.grp 1 (.plusL (.cls .dot)), rlits ["しました", "した", "完了しました"]]]

/-- Models `report_patterns["material_usage"]`. -/
def material_usage_patterns : List Rx := [
  rcats [.grp 1 (.plusL (.cls .dot)), rlits ["を", "に"], .grp 2 (.plusL (.cls .dot)),
    rlits ["散布", "使用", "撒いた", "かけた"]],
  rcats [.grp 1 (.plusL (.cls .dot)), rlits ["で", "に"], .grp 2 (.plusL (.cls .dot)),
    rlits ["を", "の"], .grp 3 (.plusL (.cls .dot)), rlits ["散布", "使用", "撒いた", "かけた"]]]

/-- Models `report_patterns["time_info"]`. -/
def time_info_patterns : List Rx := [
  rcats [.grp 1 rxHM, rxWS, rlits ["から", "より"], rxWS, .grp 2 rxHM, rxWS, rlits ["まで", "迄"]],
  rcats [.grp 1 rxHM, rxWS, rlits ["～", "〜", "−", "ー"], rxWS, .grp 2 rxHM],
  rcats [.grp 1 (rcats [rxD12, .lit "時", rxD12, .lit "分"]), rxWS, rlits ["から", "より"], rxWS,
    .grp 2 (rcats [rxD12, .lit "時", rxD12, .lit "分"]), rxWS, rlits ["まで", "迄"]]]

/-- Models `report_patterns["weather"]`. -/
def weather_patterns : List Rx := [
  rcats [rlits ["天気", "天候", "気候"], .opt (rlits ["は", ":"]), .grp 1 (.plusL (.cls .dot)),
    rlits ["でした", "だった", "です", "だ"]],
  rcats [.grp 1 (.plusL (.cls .dot)), rlits ["でした", "だった", "です", "だ"],
    rlits ["ので", "から", "が、"]]]

/-- Models `self.date_patterns`, each with its number of capture groups. -/
def date_patterns : List (Rx × Nat) := [
  (rcats [.grp 1 rxD4, .cls (.anyOf "年/-"), .grp 2 rxD12, .cls (.anyOf "月/-"),
    .grp 3 rxD12, .opt (.lit "日")], 3),
  (rcats [.grp 1 rxD12, .cls (.anyOf "月/-"), .grp 2 rxD12, .opt (.lit "日")], 2),
  (rlits ["今日", "きょう", "本日"], 0),
  (rlits ["昨日", "きのう"], 0),
  (rlits ["明日", "あした", "あす"], 0)]

/-- Models `self.context_keywords` of the report parser. -/
def context_keywords : List (String × List String) := [
  ("urgency", ["急いで", "至急", "すぐに", "早急に", "緊急"]),
  ("difficulty", ["難しい", "困難", "大変", "苦労", "問題"]),
  ("quality", ["良い", "悪い", "問題ない", "順調", "うまく"]),
  ("weather_concern", ["雨", "風", "暑い", "寒い", "曇り", "晴れ"])]

/-- Models `_extract_task_name`: first completion pattern that matches wins
(returning the glossary-normalized capture when normalization changes it),
else a direct scan for a canonical task name occurring in the text. -/
def extract_task_name (text : Str) : Option String :=
  match completion_patterns.findSome? (fun p => rxSearch false p text) with
  | some m =>
    let task_candidate : String := ⟨pyStrip (grp1 m)⟩
    let normalized_task := AgriculturalGlossary.normalize_task_name task_candidate
    if normalized_task ≠ task_candidate then some normalized_task else some task_candidate
  | none =>
    (AgriculturalGlossary.task_synonyms.find? (fun p => strContains text p.1.data)).map (·.1)

/-- Models `_extract_crop_name`: canonical names first (case-sensitive), then
synonyms against the lowercased text. -/
def extract_crop_name (text : Str) : Option String :=
  match AgriculturalGlossary.crop_synonyms.find? (fun p => strContains text p.1.data) with
  | some p => some p.1
  | none =>
    (AgriculturalGlossary.crop_synonyms.find? (fun p =>
      p.2.any (fun syn => strContains (lowerStr text) syn.data))).map (·.1)

/-- Models `_extract_completion_status`. -/
def extract_completion_status (text : Str) : Option String :=
  if ["完了", "終了", "終わり", "できた", "やった", "実施した", "行った"].any
      (fun w => strContains text w.data) then some "完了"
  else if ["未完了", "未実施", "未着手", "途中", "継続中"].any
      (fun w => strContains text w.data) then some "未完了"
  else none

/-- Models `_extract_date`: relative keywords resolve against the clock; then the
explicit date patterns (a three-group match renders the year capture
verbatim, a two-group match uses the clock's year); finally the caller's
`default_date` if a non-empty context dict provides one. -/
def extract_date (clock : Clock) (text : Str) (context : Option PyDict) : Option String :=
  if ["今日", "きょう", "本日"].any (fun w => strContains text w.data) then
    some clock.todayISO
  else if ["昨日", "きのう"].any (fun w => strContains text w.data) then
    some clock.yesterdayISO
  else if ["明日", "あした", "あす"].any (fun w => strContains text w.data) then
    some clock.tomorrowISO
  else
    match date_patterns.findSome? (fun pr =>
      match rxSearch false pr.1 text with
      | some m =>
        if pr.2 = 3 then
          some ((⟨grpN m 1⟩ : String) ++ "-" ++ pad2 (digitsToNat (grpN m 2)) ++ "-"
            ++ pad2 (digitsToNat (grpN m 3)))
        else if pr.2 = 2 then
          some (toString clock.year ++ "-" ++ pad2 (digitsToNat (grpN m 1)) ++ "-"
            ++ pad2 (digitsToNat (grpN m 2)))
        else none
      | none => none) with
    | some d => some d
    | none =>
      match context with
      | some ctx =>
        if ctx ≠ [] && ctx.any (fun p => p.1 = "default_date") then
          (ctx.find? (fun p => p.1 = "default_date")).map (·.2)
        else none
      | none => none

/-- Models `_extract_time_range`: first time pattern that matches, both captures
normalized via the glossary time normalizer. -/
def extract_time_range (text : Str) : Option String × Option String :=
  match time_info_patterns.findSome? (fun p => rxSearch false p text) with
  | some m =>
    (some (AgriculturalGlossary.normalize_time ⟨grpN m 1⟩),
     some (AgriculturalGlossary.normalize_time ⟨grpN m 2⟩))
  | none => (none, none)

/-- The `re.search(r"(\d+)\s*倍", text)` dilution probe of
`_extract_materials`, run on the whole text. -/
def firstDilution (text : Str) : Option String :=
  match rxSearch false (rcats [.grp 1 (.plusG (.cls .digit)), rxWS, .lit "倍"]) text with
  | some m => some ((⟨grp1 m⟩ : String) ++ "倍")
  | none => none

/-- Models `_extract_materials`: each material-usage pattern contributes at most
one entry (its first match), with the glossary-normalized group-1 capture
as name and the whole-text dilution probe attached. -/
def extract_materials (text : Str) : List Material :=
  material_usage_patterns.foldr (fun p acc =>
    match rxSearch false p text with
    | some m =>
      let material_name : String := ⟨pyStrip (grp1 m)⟩
      { name := AgriculturalGlossary.normalize_material_name material_name,
        original_name := material_name,
        dilution := firstDilution text } :: acc
    | none => acc) []

/-- Models `_extract_quantity`: the first extracted quantity's normalized form. -/
def extract_quantity (text : Str) : Option String :=
  match AgriculturalGlossary.extract_quantities ⟨text⟩ with
  | q :: _ => some q.normalized
  | [] => none

/-- Models `_extract_weather`: fixed keyword scan first, then the weather
patterns. -/
def extract_weather (text : Str) : Option String :=
  match ["晴れ", "曇り", "雨", "雪", "風", "暑い", "寒い", "湿度", "乾燥"].find?
      (fun w => strContains text w.data) with
  | some w => some w
  | none =>
    (weather_patterns.findSome? (fun p => rxSearch false p text)).map
      (fun m => (⟨pyStrip (grp1 m)⟩ : String))

/-- Models `_extract_notes`: labeled `備考:`-style segments first, otherwise the
semicolon-joined list of matched contextual keywords. -/
def extract_notes (text : Str) : Option String :=
  let labeled := ["備考", "メモ", "注意", "問題", "課題", "その他"].findSome? (fun kw =>
    (rxSearch false (rcats [.lit kw, .cls (.anyOf "：:"), rxWS, .grp 1 (.plusG (.cls .dot))])
      text).map (fun m => (⟨pyStrip (grp1 m)⟩ : String)))
  match labeled with
  | some s => some s
  | none =>
    let infos := context_keywords.foldr (fun cat acc =>
      (cat.2.filter (fun k => strContains text k.data)).map
        (fun k => cat.1 ++ ": " ++ k) ++ acc) []
    if infos.isEmpty then none else some (String.intercalate "; " infos)

/-- Models `suggestion_patterns` of `_extract_next_task_suggestion`. -/
def suggestion_patterns : List Rx := [
  rcats [.lit "次", rlits ["回", "に"], .opt (rlits ["は", "の"]), .grp 1 (.plusL (.cls .dot)),
    rlits ["が", "を", "は"], rlits ["必要", "やる", "する", "実施"]],
  rcats [.lit "今度", .grp 1 (.plusL (.cls .dot)), rlits ["が", "を", "は"],
    rlits ["必要", "やる", "する", "実施"]],
  rcats [rlits ["次", "今度"], .grp 1 (.plusL (.cls .dot)),
    rlits ["してください", "した方がよい", "すべき"]]]

/-- Models `_extract_next_task_suggestion`. -/
def extract_next_task_suggestion (text : Str) : Option String :=
  (suggestion_patterns.findSome? (fun p => rxSearch false p text)).map (fun m =>
    AgriculturalGlossary.normalize_task_name ⟨pyStrip (grp1 m)⟩)

/-- Python truthiness of an `Optional[str]` field (`None` and the empty
string are falsy). -/
def truthyS (o : Option String) : Bool :=
  match o with
  | some s => s ≠ ""
  | none => false

/-- Whether per-token dictionary normalization changes a token — the test
of the `normalized_terms` loop in `_calculate_confidence_score`. -/
def changedTok (w : Str) : Bool :=
  AgriculturalGlossary.normalize_crop_name ⟨w⟩ ≠ (⟨w⟩ : String) ||
  AgriculturalGlossary.normalize_task_name ⟨w⟩ ≠ (⟨w⟩ : String) ||
  AgriculturalGlossary.normalize_material_name ⟨w⟩ ≠ (⟨w⟩ : String)

/-- Models `_calculate_confidence_score`, following the source's accumulation
order; all Python float constants are exact decimals, modelled in `ℚ`. -/
def calculate_confidence_score (report : ParsedWorkReport) (text : Str) : ℚ :=
  let score : ℚ := 0
  let score := if truthyS report.task_name then score + 2 else score
  let score := if truthyS report.field_name then score + 3/2 else score
  let score := if truthyS report.completion_status then score + 3/2 else score
  let score := if truthyS report.work_date then score + 1 else score
  let score := if report.materials_used ≠ [] then score + 1 else score
  let score := if truthyS report.quantity_applied then score + 1 else score
  let score := if truthyS report.weather_condition then score + 1/2 else score
  let score := if truthyS report.notes then score + 1/2 else score
  let score := if text.length > 50 then score + 1 else score
  let normalized_terms := (pySplit text).countP changedTok
  let score :=
    if normalized_terms > 0 then score + min ((normalized_terms : ℚ) * (1/5)) 1 else score
  min (score / 10) 1

/-- Models `WorkReportParser.parse_report` before the final confidence
assignment: the report record as populated by the extraction steps. -/
def parse_report_fields (clock : Clock) (context : Option PyDict) (text : String) :
    ParsedWorkReport :=
  let ntext := (AgriculturalGlossary.comprehensive_normalize text).data
  let tr := extract_time_range ntext
  { task_name := extract_task_name ntext,
    field_name := AgriculturalGlossary.extract_field_name ⟨ntext⟩,
    crop_name := extract_crop_name ntext,
    worker_name := none,
    completion_status := extract_completion_status ntext,
    work_date := extract_date clock ntext context,
    start_time := tr.1,
    end_time := tr.2,
    materials_used := extract_materials ntext,
    quantity_applied := extract_quantity ntext,
    weather_condition := extract_weather ntext,
    notes := extract_notes ntext,
    next_task_suggestion := extract_next_task_suggestion ntext,
    confidence_score := 0 }

/-- Models `WorkReportParser.parse_report`: populate the report, then compute its
confidence score from the populated fields and the normalized text. -/
def parse_report (clock : Clock) (context : Option PyDict) (text : String) : ParsedWorkReport :=
  { parse_report_fields clock context text with
    confidence_score := calculate_confidence_score (parse_report_fields clock context text)
      ((AgriculturalGlossary.comprehensive_normalize text).data) }

/-- Models `datetime.strptime(t, "%H:%M")`: one or two digits of hour (≤ 23), a
colon, one or two digits of minute (≤ 59), nothing else. -/
def parseHM (s : String) : Option (Nat × Nat) :=
  let dig (c : Char) : Bool := '0' ≤ c && c ≤ '9'
  let v (c : Char) : Nat := c.toNat - '0'.toNat
  match s.data with
  | [h1, ':', m1] =>
    if dig h1 && dig m1 then some (v h1, v m1) else none
  | [h1, ':', m1, m2] =>
    if dig h1 && dig m1 && dig m2 && v m1 ≤ 5 then some (v h1, v m1 * 10 + v m2) else none
  | [h1, h2, ':', m1] =>
    if dig h1 && dig h2 && (v h1 ≤ 1 || (v h1 = 2 && v h2 ≤ 3)) && dig m1 then
      some (v h1 * 10 + v h2, v m1)
    else none
  | [h1, h2, ':', m1, m2] =>
    if dig h1 && dig h2 && (v h1 ≤ 1 || (v h1 = 2 && v h2 ≤ 3)) && dig m1 && dig m2
        && v m1 ≤ 5 then
      some (v h1 * 10 + v h2, v m1 * 10 + v m2)
    else none
  | _ => none

/-- The issues dict returned by `validate_report`. -/
structure Issues where
  warnings : List String
  errors : List String
  suggestions : List String
deriving DecidableEq

/-- Models `WorkReportParser.validate_report`. -/
def validate_report (report : ParsedWorkReport) : Issues :=
  let errors := if !truthyS report.task_name then ["作業名が特定できませんでした"] else []
  let warnings := if !truthyS report.field_name then ["圃場名が特定できませんでした"] else []
  let warnings := warnings ++
    (if !truthyS report.completion_status then ["完了ステータスが不明です"] else [])
  let warnings := warnings ++
    (if truthyS report.start_time && truthyS report.end_time then
      match parseHM (report.start_time.getD ""), parseHM (report.end_time.getD "") with
      | some s, some e =>
        if s.1 > e.1 || (s.1 = e.1 && s.2 ≥ e.2) then ["開始時刻が終了時刻より遅いです"] else []
      | _, _ => ["時刻の形式が正しくありません"]
    else [])
  let suggestions :=
    if report.confidence_score < 7/10 then ["より詳細な情報を提供してください"] else []
  let suggestions := suggestions ++
    (if report.materials_used = [] &&
        (report.task_name = some "防除" || report.task_name = some "施肥") then
      ["使用した資材を明記してください"]
    else [])
  { warnings := warnings, errors := errors, suggestions := suggestions }

end WorkReport

/-- A concrete clock used by closed counterexamples and witnesses. -/
def clkSample : Clock :=
  { todayISO := "2026-10-12", yesterdayISO := "2026-10-11",
    tomorrowISO := "2026-10-13", year := 2026 }

/-- The input of end-to-end scenario A (claim C1). -/
def c1input : String :=
  "F14で大豆の防除を完了しました。クプロシールドを1000倍希釈で散布。9:00から11:30まで作業。"

/-- A report text whose normalized form repeats one dictionary-rewritable
token twice (used to separate distinct-token from per-occurrence counting
in the confidence score, claim C2). -/
def c2input : String := "だいず Aだいずsowing Aだいずsowing"

/-- The input of end-to-end scenario B (claim C3). -/
def c3input : String := "それが完了しました"

/-- The input of end-to-end scenario C (claim C4). -/
def c4input : String := "明日はどの圃場で何をすればいいですか？"

namespace WorkReport

/-- Modelled from the spec wording of the confidence formula (claim C2),
with the per-token bonus counting every token occurrence the way the code
does: the additive point total before the 10-point clamp. -/
def specScore (r : ParsedWorkReport) (ntext : Str) : ℚ :=
  (if truthyS r.task_name then 2 else 0)
  + (if truthyS r.field_name then 3/2 else 0)
  + (if truthyS r.completion_status then 3/2 else 0)
  + (if truthyS r.work_date then 1 else 0)
  + (if r.materials_used ≠ [] then 1 else 0)
  + (if truthyS r.quantity_applied then 1 else 0)
  + (if truthyS r.weather_condition then 1/2 else 0)
  + (if truthyS r.notes then 1/2 else 0)
  + (if ntext.length > 50 then 1 else 0)
  + min (((pySplit ntext).countP changedTok : ℚ) * (1/5)) 1

/-- The point total exactly as claim C2 words it: the per-token bonus
counts only distinct changed tokens. -/
def specScoreDistinct (r : ParsedWorkReport) (ntext : Str) : ℚ :=
  (if truthyS r.task_name then 2 else 0)
  + (if truthyS r.field_name then 3/2 else 0)
  + (if truthyS r.completion_status then 3/2 else 0)
  + (if truthyS r.work_date then 1 else 0)
  + (if r.materials_used ≠ [] then 1 else 0)
  + (if truthyS r.quantity_applied then 1 else 0)
  + (if truthyS r.weather_condition then 1/2 else 0)
  + (if truthyS r.notes then 1/2 else 0)
  + (if ntext.length > 50 then 1 else 0)
  + min ((((pySplit ntext).dedup.countP changedTok : ℚ)) * (1/5)) 1

end WorkReport

/-- Claim C9's side condition, spelled out stage by stage: the string is
fixed by stripping, by each of the three pattern-substitution passes, and
every whitespace token of it is fixed by the three dictionary
normalizers — i.e. no further rewrite of `comprehensive_normalize` can
fire on it. -/
def NoFurtherRewrites (y : String) : Prop :=
  pyStrip y.data = y.data
  ∧ AgriculturalGlossary.normalize_units y = y
  ∧ AgriculturalGlossary.normalize_time y = y
  ∧ AgriculturalGlossary.normalize_dilution y = y
  ∧ ∀ w ∈ pySplit y.data,
      AgriculturalGlossary.normalize_crop_name ⟨w⟩ = (⟨w⟩ : String)
      ∧ AgriculturalGlossary.normalize_task_name ⟨w⟩ = (⟨w⟩ : String)
      ∧ AgriculturalGlossary.normalize_material_name ⟨w⟩ = (⟨w⟩ : String)

/-- The attributes of `ConversationContext` that a keyword argument of
`update_context` can name (besides `user_id`, which cannot be passed). -/
inductive CtxField where
  | current_task
  | current_field
  | current_crop
  | working_date
  | recent_questions
  | preferences
  | work_history
  | created_at
  | updated_at
deriving DecidableEq

/-- The attribute a keyword argument writes to (`none` for a keyword that
fails `hasattr` and is skipped). -/
def CtxAssign.target : CtxAssign → Option CtxField
  | .current_task _ => some .current_task
  | .current_field _ => some .current_field
  | .current_crop _ => some .current_crop
  | .working_date _ => some .working_date
  | .recent_questions _ => some .recent_questions
  | .preferences _ => some .preferences
  | .work_history _ => some .work_history
  | .created_at _ => some .created_at
  | .updated_at _ => some .updated_at
  | .unknownAttr _ => none

/-- Two contexts agree on one attribute. -/
def fieldEq (f : CtxField) (c1 c2 : ConversationContext) : Prop :=
  match f with
  | .current_task => c1.current_task = c2.current_task
  | .current_field => c1.current_field = c2.current_field
  | .current_crop => c1.current_crop = c2.current_crop
  | .working_date => c1.working_date = c2.working_date
  | .recent_questions => c1.recent_questions = c2.recent_questions
  | .preferences => c1.preferences = c2.preferences
  | .work_history => c1.work_history = c2.work_history
  | .created_at => c1.created_at = c2.created_at
  | .updated_at => c1.updated_at = c2.updated_at

/-- Decidability of the claim C9 side condition (it is a conjunction of
string equalities and a bounded quantifier over the token list). -/
instance (y : String) : Decidable (NoFurtherRewrites y) := by
  unfold NoFurtherRewrites
  infer_instance

/-- Sixty concrete question entries for exercising the history bound. -/
def qs60 : List (String × String) := List.replicate 60 ("質問", "t0")

/-- Sixty concrete work records for exercising the history bound. -/
def ws60 : List (PyDict × String) := List.replicate 60 ([("task", "防除")], "t0")

open WorkReport AgriculturalGlossary

/-- Structure eta for Python strings. -/
theorem strEta (s : String) : (⟨s.data⟩ : String) = s := rfl

/-- Rewriting one accumulate-if step of the score into an added summand. -/
theorem ite_acc (p : Prop) [Decidable p] (s b : ℚ) :
    (if p then s + b else s) = s + (if p then b else 0) := by
  split <;> simp

/-- The guarded normalized-term bonus equals the unguarded one (at zero
count both are zero). -/
theorem min_term_if (n : Nat) :
    (if n > 0 then min ((n : ℚ) * (1/5)) 1 else (0 : ℚ)) = min ((n : ℚ) * (1/5)) 1 := by
  rcases Nat.eq_zero_or_pos n with h | h
  · subst h; norm_num
  · simp [h]

/-- The source's sequential accumulation computes the additive point
formula clamped at 1. -/
theorem calc_eq_specScore (r : ParsedWorkReport) (t : Str) :
    calculate_confidence_score r t = min (specScore r t / 10) 1 := by
  unfold calculate_confidence_score specScore
  simp only [ite_acc, min_term_if]
  ring_nf

/-- The point total is nonnegative. -/
theorem specScore_nonneg (r : ParsedWorkReport) (t : Str) : 0 ≤ specScore r t := by
  unfold specScore
  repeat' apply add_nonneg
  all_goals first
    | exact le_min (by positivity) (by norm_num)
    | (split <;> norm_num)

/-- The point total ignores the confidence field. -/
theorem specScore_update (r : ParsedWorkReport) (q : ℚ) (t : Str) :
    specScore { r with confidence_score := q } t = specScore r t := rfl

/-- The score computation ignores the confidence field. -/
theorem calculate_update (r : ParsedWorkReport) (q : ℚ) (t : Str) :
    calculate_confidence_score { r with confidence_score := q } t
      = calculate_confidence_score r t := rfl

/-- Setting the confidence field leaves the materials list unchanged. -/
theorem materials_update (r : ParsedWorkReport) (q : ℚ) :
    ({ r with confidence_score := q } : ParsedWorkReport).materials_used
      = r.materials_used := rfl

/-- Setting the confidence field leaves the quantity unchanged. -/
theorem quantity_applied_update (r : ParsedWorkReport) (q : ℚ) :
    ({ r with confidence_score := q } : ParsedWorkReport).quantity_applied
      = r.quantity_applied := rfl

/-- Every entry produced by the material-extraction fold carries the
whole-text dilution probe. -/
theorem materials_foldr_dilution (t : Str) :
    ∀ (ps : List Rx) (mm : Material),
      mm ∈ ps.foldr (fun p acc =>
        match rxSearch false p t with
        | some m =>
          { name := AgriculturalGlossary.normalize_material_name (⟨pyStrip (grp1 m)⟩ : String),
            original_name := (⟨pyStrip (grp1 m)⟩ : String),
            dilution := firstDilution t } :: acc
        | none => acc) [] → mm.dilution = firstDilution t := by
  intro ps
  induction ps with
  | nil => intro mm hmm; simp at hmm
  | cons p rest ih =>
    intro mm hmm
    rw [List.foldr] at hmm
    rcases h : rxSearch false p t with _ | m
    · rw [h] at hmm
      exact ih mm hmm
    · rw [h] at hmm
      rcases List.mem_cons.mp hmm with heq | hmem
      · rw [heq]
      · exact ih mm hmem

/-- Attribute agreement is reflexive. -/
theorem fieldEq_refl (f : CtxField) (c : ConversationContext) : fieldEq f c c := by
  cases f <;> rfl

/-- Attribute agreement is transitive. -/
theorem fieldEq_trans {f : CtxField} {a b c : ConversationContext}
    (h1 : fieldEq f a b) (h2 : fieldEq f b c) : fieldEq f a c := by
  cases f <;> exact h1.trans h2

/-- A keyword assignment leaves every attribute it does not target
unchanged. -/
theorem setAttr_fieldEq (c : ConversationContext) (a : CtxAssign) (f : CtxField)
    (h : a.target ≠ some f) : fieldEq f (setAttr c a) c := by
  cases a <;> cases f <;> first
    | rfl
    | exact absurd rfl h

/-- Folding keyword assignments leaves untargeted attributes unchanged. -/
theorem foldl_setAttr_fieldEq (f : CtxField) :
    ∀ (kwargs : List CtxAssign) (c : ConversationContext),
      (∀ a ∈ kwargs, a.target ≠ some f) → fieldEq f (kwargs.foldl setAttr c) c
  | [], c, _ => fieldEq_refl f c
  | a :: rest, c, h => by
    have h1 : fieldEq f (setAttr c a) c := setAttr_fieldEq c a f (h a (by simp))
    have h2 := foldl_setAttr_fieldEq f rest (setAttr c a) (fun b hb => h b (by simp [hb]))
    exact fieldEq_trans h2 h1

/-- Dropping the unknown-name keywords does not change the fold. -/
theorem foldl_setAttr_filter :
    ∀ (kwargs : List CtxAssign) (c : ConversationContext),
      (kwargs.filter (fun a => a.target.isSome)).foldl setAttr c = kwargs.foldl setAttr c
  | [], _ => rfl
  | a :: rest, c => by
    cases a <;>
      simp only [List.filter, List.foldl, CtxAssign.target, Option.isSome] <;>
      exact foldl_setAttr_filter rest _

/-- No keyword assignment can change the user id. -/
theorem foldl_setAttr_user_id :
    ∀ (kwargs : List CtxAssign) (c : ConversationContext),
      (kwargs.foldl setAttr c).user_id = c.user_id
  | [], _ => rfl
  | a :: rest, c => by
    have := foldl_setAttr_user_id rest (setAttr c a)
    cases a <;> simpa [setAttr] using this

/-- Lists no longer than the bound pass through the slice unchanged. -/
theorem pyLastN_of_le {α : Type} {n : Nat} {l : List α} (h : l.length ≤ n) :
    pyLastN n l = l := by
  unfold pyLastN
  split
  · rfl
  · have h0 : l.length - n = 0 := by omega
    rw [h0, List.drop_zero]

/-- The slice keeps at most `n` entries (for positive `n`). -/
theorem pyLastN_len {α : Type} (n : Nat) (l : List α) (hn : n ≠ 0) :
    (pyLastN n l).length ≤ n := by
  unfold pyLastN
  rw [if_neg hn, List.length_drop]
  omega

/-- The conditional truncation of the history code equals the plain
slice. -/
theorem if_gt_pyLastN {α : Type} (n : Nat) (l : List α) :
    (if l.length > n then pyLastN n l else l) = pyLastN n l := by
  split
  · rfl
  · exact (pyLastN_of_le (by omega)).symm

/-- Slicing, appending, and slicing again equals slicing the whole
append: the key absorption law of bounded-FIFO eviction. -/
theorem pyLastN_append {α : Type} (n : Nat) (a b : List α) :
    pyLastN n (pyLastN n a ++ b) = pyLastN n (a ++ b) := by
  rcases Nat.eq_zero_or_pos n with h0 | hn
  · subst h0; simp [pyLastN]
  · rcases le_or_lt a.length n with hle | hgt
    · rw [pyLastN_of_le hle]
    · unfold pyLastN
      rw [if_neg (by omega), if_neg (by omega), if_neg (by omega)]
      have hlen : (a.drop (a.length - n)).length = n := by
        rw [List.length_drop]; omega
      have h1 : a.drop (a.length - n) ++ b = (a ++ b).drop (a.length - n) :=
        (List.drop_append_of_le_length (by omega)).symm
      rw [List.length_append, List.length_append, hlen, h1, List.drop_drop]
      congr 1
      omega

/-- One question append evicts down to the last 50 entries and preserves
the history bound. -/
theorem addq_step (user : String) (now : Nat) (iso q : String) (m : ContextManager)
    (hmax : m.max_history_size = 50) :
    (((m.add_question_to_history user now iso q).get_context user now).1).recent_questions
        = pyLastN 50 (((m.get_context user now).1).recent_questions
            ++ [{ question := q, timestamp := iso }])
    ∧ (m.add_question_to_history user now iso q).max_history_size = 50 := by
  constructor
  · simp only [ContextManager.add_question_to_history, ContextManager.get_context,
      ContextManager.putCtx, hmax]
    cases hm : m.contexts user <;> simp [hm, if_gt_pyLastN] <;>
      first
        | exact (pyLastN_of_le (by simp)).symm
        | (intro h; exact (pyLastN_of_le (by simp; omega)).symm)
  · simp only [ContextManager.add_question_to_history, ContextManager.get_context,
      ContextManager.putCtx]
    cases hm : m.contexts user <;> simp [hm, hmax]

/-- Folding question appends keeps exactly the last 50 of everything
appended. -/
theorem addq_fold (user : String) (now : Nat) :
    ∀ (qs : List (String × String)) (m : ContextManager), m.max_history_size = 50 →
      ((m.get_context user now).1).recent_questions.length ≤ 50 →
      (((qs.foldl (fun acc q => acc.add_question_to_history user now q.2 q.1)
          m).get_context user now).1).recent_questions
        = pyLastN 50 (((m.get_context user now).1).recent_questions
            ++ qs.map (fun q => { question := q.1, timestamp := q.2 }))
  | [], m, _, hlen => by
    rw [List.map_nil, List.append_nil, List.foldl_nil, pyLastN_of_le hlen]
  | q :: qs, m, hmax, _ => by
    rw [List.foldl_cons]
    obtain ⟨hstep, hmax'⟩ := addq_step user now q.2 q.1 m hmax
    have hlen' : (((m.add_question_to_history user now q.2 q.1).get_context
        user now).1).recent_questions.length ≤ 50 := by
      rw [hstep]; exact pyLastN_len 50 _ (by omega)
    rw [addq_fold user now qs _ hmax' hlen', hstep, pyLastN_append, List.map_cons]
    simp [List.append_assoc]

/-- One work append evicts down to the last 50 entries and preserves the
history bound. -/
theorem addw_step (user : String) (now : Nat) (iso : String) (w : PyDict)
    (m : ContextManager) (hmax : m.max_history_size = 50) :
    (((m.add_work_to_history user now iso w).get_context user now).1).work_history
        = pyLastN 50 (((m.get_context user now).1).work_history
            ++ [pyDictSet w "timestamp" iso])
    ∧ (m.add_work_to_history user now iso w).max_history_size = 50 := by
  constructor
  · simp only [ContextManager.add_work_to_history, ContextManager.get_context,
      ContextManager.putCtx, hmax]
    cases hm : m.contexts user <;> simp [hm, if_gt_pyLastN] <;>
      first
        | exact (pyLastN_of_le (by simp)).symm
        | (intro h; exact (pyLastN_of_le (by simp; omega)).symm)
  · simp only [ContextManager.add_work_to_history, ContextManager.get_context,
      ContextManager.putCtx]
    cases hm : m.contexts user <;> simp [hm, hmax]

/-- Folding work appends keeps exactly the last 50 of everything
appended. -/
theorem addw_fold (user : String) (now : Nat) :
    ∀ (ws : List (PyDict × String)) (m : ContextManager), m.max_history_size = 50 →
      ((m.get_context user now).1).work_history.length ≤ 50 →
      (((ws.foldl (fun acc w => acc.add_work_to_history user now w.2 w.1)
          m).get_context user now).1).work_history
        = pyLastN 50 (((m.get_context user now).1).work_history
            ++ ws.map (fun w => pyDictSet w.1 "timestamp" w.2))
  | [], m, _, hlen => by
    rw [List.map_nil, List.append_nil, List.foldl_nil, pyLastN_of_le hlen]
  | w :: ws, m, hmax, _ => by
    rw [List.foldl_cons]
    obtain ⟨hstep, hmax'⟩ := addw_step user now w.2 w.1 m hmax
    have hlen' : (((m.add_work_to_history user now w.2 w.1).get_context
        user now).1).work_history.length ≤ 50 := by
      rw [hstep]; exact pyLastN_len 50 _ (by omega)
    rw [addw_fold user now ws _ hmax' hlen', hstep, pyLastN_append, List.map_cons]
    simp [List.append_assoc]

/-- A token fixed by all three dictionary normalizers leaves the
accumulated string untouched, so the whole token fold is the identity. -/
theorem cnStep_fix_fold :
    ∀ (toks : List Str) (acc : Str),
      (∀ w ∈ toks, AgriculturalGlossary.normalize_crop_name ⟨w⟩ = (⟨w⟩ : String)
        ∧ AgriculturalGlossary.normalize_task_name ⟨w⟩ = (⟨w⟩ : String)
        ∧ AgriculturalGlossary.normalize_material_name ⟨w⟩ = (⟨w⟩ : String)) →
      toks.foldl AgriculturalGlossary.cnStep acc = acc
  | [], _, _ => rfl
  | w :: toks, acc, h => by
    have hw := h w (by simp)
    have hstep : AgriculturalGlossary.cnStep acc w = acc := by
      simp [AgriculturalGlossary.cnStep, hw.1, hw.2.1, hw.2.2]
    rw [List.foldl_cons, hstep]
    exact cnStep_fix_fold toks acc (fun v hv => h v (List.mem_cons_of_mem w hv))

/-- Claim C1 (counterexample): on scenario A's input the parser does not
return task_name "防除" — the lazily captured completion-pattern group is
the whole prefix "F14で大豆の防除", which no registered task synonym
normalizes away — and no materials_used entry is named "クプロシールド". -/
theorem claim_C1_counterexample :
    (parse_report clkSample none c1input).task_name = some "F14で大豆の防除"
    ∧ (some "F14で大豆の防除" : Option String) ≠ some "防除"
    ∧ (∀ m ∈ (parse_report clkSample none c1input).materials_used, m.name ≠ "クプロシールド") := by
  refine ⟨by decide, by decide, by decide⟩

set_option maxHeartbeats 2000000 in
/-- Claim C1 (amended): for scenario A's input and any wall clock,
parse_report returns field_name "F14", crop_name "大豆",
completion_status "完了", start_time "9:00", end_time "11:30" as claimed,
but task_name is the whole captured prefix "F14で大豆の防除", the two
materials_used entries are "F14で大豆の防除" and "F14" (each carrying
dilution "1000倍"), quantity_applied is "1000倍", and the confidence
score is exactly 0.7 — not greater than 0.7. -/
theorem claim_C1_thm (clock : Clock) :
    parse_report clock none c1input =
      { task_name := some "F14で大豆の防除", field_name := some "F14",
        crop_name := some "大豆", worker_name := none, completion_status := some "完了",
        work_date := none, start_time := some "9:00", end_time := some "11:30",
        materials_used := [⟨"F14で大豆の防除", "F14で大豆の防除", some "1000倍"⟩,
          ⟨"F14", "F14", some "1000倍"⟩],
        quantity_applied := some "1000倍", weather_condition := none, notes := none,
        next_task_suggestion := none,
        confidence_score := (parse_report clock none c1input).confidence_score }
    ∧ (parse_report clock none c1input).confidence_score = 7/10 := by
  have h : parse_report clock none c1input =
      { task_name := some "F14で大豆の防除", field_name := some "F14",
        crop_name := some "大豆", worker_name := none, completion_status := some "完了",
        work_date := none, start_time := some "9:00", end_time := some "11:30",
        materials_used := [⟨"F14で大豆の防除", "F14で大豆の防除", some "1000倍"⟩,
          ⟨"F14", "F14", some "1000倍"⟩],
        quantity_applied := some "1000倍", weather_condition := none, notes := none,
        next_task_suggestion := none,
        confidence_score := (parse_report clock none c1input).confidence_score } := rfl
  refine ⟨h, ?_⟩
  have hc0 : (parse_report clock none c1input).confidence_score
      = calculate_confidence_score (parse_report clock none c1input)
        ((AgriculturalGlossary.comprehensive_normalize c1input).data) :=
    (calculate_update (parse_report_fields clock none c1input) _ _).symm
  have hlen : ¬ ((AgriculturalGlossary.comprehensive_normalize c1input).data.length > 50) := by
    decide
  have hcnt : (pySplit ((AgriculturalGlossary.comprehensive_normalize c1input).data)).countP
      changedTok = 0 := by decide
  rw [hc0, h]
  simp only [calculate_confidence_score, truthyS, hlen, hcnt,
    show ¬ (("F14で大豆の防除" : String) = "") from by decide,
    show ¬ (("F14" : String) = "") from by decide,
    show ¬ (("完了" : String) = "") from by decide,
    show ¬ (("1000倍" : String) = "") from by decide,
    List.cons_ne_nil, ne_eq, not_false_eq_true, if_false, if_true]
  norm_num

/-- Claim C2 (amended): for every clock, caller context and input text,
the confidence score of the returned report is min(S/10, 1) where S is
the additive point total of the claim computed over the report's own
fields — with presence meaning Python truthiness (non-None, non-empty)
and with the +0.2 per-token bonus counting every changed token occurrence
of the normalized text (not only distinct ones) — and the score always
lies in [0, 1]. -/
theorem claim_C2_thm (clock : Clock) (ctx : Option PyDict) (text : String) :
    (parse_report clock ctx text).confidence_score
        = min (specScore (parse_report clock ctx text)
            ((AgriculturalGlossary.comprehensive_normalize text).data) / 10) 1
    ∧ 0 ≤ (parse_report clock ctx text).confidence_score
    ∧ (parse_report clock ctx text).confidence_score ≤ 1 := by
  have h2 : specScore (parse_report clock ctx text)
        ((AgriculturalGlossary.comprehensive_normalize text).data)
      = specScore (parse_report_fields clock ctx text)
        ((AgriculturalGlossary.comprehensive_normalize text).data) :=
    specScore_update (parse_report_fields clock ctx text) _ _
  have hmain : (parse_report clock ctx text).confidence_score
      = min (specScore (parse_report clock ctx text)
          ((AgriculturalGlossary.comprehensive_normalize text).data) / 10) 1 := by
    calc (parse_report clock ctx text).confidence_score
        = calculate_confidence_score (parse_report_fields clock ctx text)
            ((AgriculturalGlossary.comprehensive_normalize text).data) := rfl
      _ = min (specScore (parse_report_fields clock ctx text)
            ((AgriculturalGlossary.comprehensive_normalize text).data) / 10) 1 :=
          calc_eq_specScore _ _
      _ = min (specScore (parse_report clock ctx text)
            ((AgriculturalGlossary.comprehensive_normalize text).data) / 10) 1 := by
          rw [h2]
  refine ⟨hmain, ?_, ?_⟩
  · rw [hmain]
    exact le_min (div_nonneg (specScore_nonneg _ _) (by norm_num)) zero_le_one
  · rw [hmain]
    exact min_le_right _ _

set_option maxHeartbeats 2000000 in
/-- Claim C2 (counterexample): on an input whose normalized text repeats
one rewritable token ("A大豆sowing") twice, the code's confidence is
0.04 (two occurrences × 0.2, over 10) while the claim's distinct-token
formula gives 0.02, so the claim as stated is false. -/
theorem claim_C2_counterexample :
    (parse_report clkSample none c2input).confidence_score = 1/25
    ∧ min (specScoreDistinct (parse_report clkSample none c2input)
        ((AgriculturalGlossary.comprehensive_normalize c2input).data) / 10) 1 = 1/50
    ∧ ((1 : ℚ)/25) ≠ 1/50 := by
  have h : parse_report clkSample none c2input =
      { task_name := none, field_name := none, crop_name := some "大豆", worker_name := none,
        completion_status := none, work_date := none, start_time := none, end_time := none,
        materials_used := [], quantity_applied := none, weather_condition := none,
        notes := none, next_task_suggestion := none,
        confidence_score := (parse_report clkSample none c2input).confidence_score } := rfl
  have hc0 : (parse_report clkSample none c2input).confidence_score
      = calculate_confidence_score (parse_report clkSample none c2input)
        ((AgriculturalGlossary.comprehensive_normalize c2input).data) :=
    (calculate_update (parse_report_fields clkSample none c2input) _ _).symm
  have hcnt : (pySplit ((AgriculturalGlossary.comprehensive_normalize c2input).data)).countP
      changedTok = 2 := by decide
  have hdcnt : ((pySplit ((AgriculturalGlossary.comprehensive_normalize c2input).data)).dedup).countP
      changedTok = 1 := by decide
  have hlen : ¬ ((AgriculturalGlossary.comprehensive_normalize c2input).data.length > 50) := by
    decide
  refine ⟨?_, ?_, by norm_num⟩
  · rw [hc0, h]
    simp only [calculate_confidence_score, truthyS, hcnt, hlen]
    norm_num [min_def]
  · rw [h]
    simp only [specScoreDistinct, truthyS, hdcnt, hlen]
    norm_num [min_def]

set_option maxHeartbeats 1000000 in
/-- Claim C3 (counterexample): on scenario B's input the parser's
task_name is not None (it is "それが"), and validate_report reports no
error at all, contrary to the claim. -/
theorem claim_C3_counterexample :
    (parse_report clkSample none c3input).task_name ≠ none
    ∧ (WorkReport.validate_report (parse_report clkSample none c3input)).errors = [] := by
  constructor
  · intro hcontra
    exact absurd ((rfl : (parse_report clkSample none c3input).task_name
      = some "それが").symm.trans hcontra) (by decide)
  · rfl

set_option maxHeartbeats 1000000 in
/-- Claim C3 (amended): with a freshly created context, resolve_ellipsis
returns "それが完了しました" unchanged (the literal それ remains), and
parse_report on it yields completion_status "完了" but task_name
"それが" (the lazily captured group before 完了), so validate_report's
error list is empty rather than containing a missing-task error. -/
theorem claim_C3_thm (now : Nat) (clock : Clock) :
    ContextManager.mk0.resolve_ellipsis "user" now c3input = c3input
    ∧ strContains c3input.data "それ".data = true
    ∧ (parse_report clock none c3input).task_name = some "それが"
    ∧ (parse_report clock none c3input).completion_status = some "完了"
    ∧ (WorkReport.validate_report (parse_report clock none c3input)).errors = [] := by
  exact ⟨rfl, rfl, rfl, rfl, rfl⟩

/-- Claim C4 (amended): for any clock, inferring context from scenario
C's question yields working_date = tomorrow's ISO date and no
current_task, but it does set current_field — the suffix-based field
pattern matches "明日はどの圃場" — contrary to the claim's "no field
slot". -/
theorem claim_C4_thm (clock : Clock) :
    ContextManager.infer_context_from_message clock c4input
      = { current_task := none, working_date := some clock.tomorrowISO,
          current_field := some "明日はどの圃場" } := by
  rfl

/-- Claim C4 (counterexample): the inferred dict does contain a
current_field entry, "明日はどの圃場". -/
theorem claim_C4_counterexample :
    (ContextManager.infer_context_from_message clkSample c4input).current_field
        = some "明日はどの圃場"
    ∧ (some "明日はどの圃場" : Option String) ≠ none := by
  exact ⟨rfl, by decide⟩

/-- Claim C5 (counterexample): " x " contains no registered task synonym,
yet normalize_task_name returns "x", not the input unchanged — the
function strips whitespace before returning. -/
theorem claim_C5_counterexample :
    (∀ p ∈ task_synonyms, ∀ syn ∈ p.2,
      strContains (lowerStr (" x " : String).data) syn.data = false)
    ∧ normalize_task_name " x " ≠ " x " := by
  exact ⟨by decide, by decide⟩

/-- Claim C5 (amended): if the lowercased stripped input contains some
registered task synonym then normalize_task_name returns the canonical
task of a contained synonym (the first table entry with a contained
synonym, by the totality of the scan); if it contains none, it returns
the input stripped of surrounding whitespace (in particular unchanged
when the input has no surrounding whitespace).  The function is total and
never fails. -/
theorem claim_C5_thm (s : String) :
    ((∃ p ∈ task_synonyms, ∃ syn ∈ p.2,
        strContains (lowerStr (pyStrip s.data)) syn.data = true) →
      ∃ p ∈ task_synonyms, ∃ syn ∈ p.2,
        strContains (lowerStr (pyStrip s.data)) syn.data = true
        ∧ normalize_task_name s = p.1)
    ∧ ((∀ p ∈ task_synonyms, ∀ syn ∈ p.2,
        strContains (lowerStr (pyStrip s.data)) syn.data = false) →
      normalize_task_name s = ⟨pyStrip s.data⟩) := by
  constructor
  · rintro ⟨p, hp, syn, hsyn, hc⟩
    have hsome : (task_synonyms.find? (fun q =>
        q.2.any (fun sy => strContains (lowerStr (pyStrip s.data)) sy.data))).isSome := by
      rw [List.find?_isSome]
      exact ⟨p, hp, by rw [List.any_eq_true]; exact ⟨syn, hsyn, hc⟩⟩
    obtain ⟨q, hq⟩ := Option.isSome_iff_exists.mp hsome
    have hqmem := List.mem_of_find?_eq_some hq
    have hqp := List.find?_some hq
    rw [List.any_eq_true] at hqp
    obtain ⟨sy, hsy, hsyc⟩ := hqp
    refine ⟨q, hqmem, sy, hsy, hsyc, ?_⟩
    simp only [normalize_task_name, synLookup, hq]
  · intro hall
    have hnone : (task_synonyms.find? (fun q =>
        q.2.any (fun sy => strContains (lowerStr (pyStrip s.data)) sy.data))) = none := by
      rw [List.find?_eq_none]
      intro q hqmem hpred
      rw [List.any_eq_true] at hpred
      obtain ⟨sy, hsy, hc⟩ := hpred
      exact absurd hc (by simp [hall q hqmem sy hsy])
    simp only [normalize_task_name, synLookup, hnone]

/-- Witness for claim C5: "タネまきした" contains the synonym タネまき
and normalizes to 播種; " x " contains no synonym and comes back
stripped. -/
theorem claim_C5_witness :
    (∃ p ∈ task_synonyms, ∃ syn ∈ p.2,
      strContains (lowerStr (pyStrip ("タネまきした" : String).data)) syn.data = true
      ∧ normalize_task_name "タネまきした" = p.1)
    ∧ normalize_task_name " x " = ⟨pyStrip (" x " : String).data⟩ :=
  ⟨(claim_C5_thm "タネまきした").1 (by decide), (claim_C5_thm " x ").2 (by decide)⟩

/-- Claim C6 (amended): update_context stamps updated_at with the current
time, can never change the user id, leaves every attribute not targeted
by any provided keyword unchanged, and ignores keyword names that are not
attributes (filtering them out does not change the result).  Contrary to
the claim, the merge is not limited to the four slot names: any
ConversationContext attribute (e.g. work_history) provided as a keyword
is written. -/
theorem claim_C6_thm (m : ContextManager) (user : String) (now : Nat)
    (kwargs : List CtxAssign) :
    (((m.update_context user now kwargs).get_context user now).1).updated_at = now
    ∧ (((m.update_context user now kwargs).get_context user now).1).user_id
        = ((m.get_context user now).1).user_id
    ∧ (∀ f : CtxField, f ≠ .updated_at → (∀ a ∈ kwargs, a.target ≠ some f) →
        fieldEq f (((m.update_context user now kwargs).get_context user now).1)
          ((m.get_context user now).1))
    ∧ m.update_context user now (kwargs.filter (fun a => a.target.isSome))
        = m.update_context user now kwargs := by
  have hread : ((m.update_context user now kwargs).get_context user now).1
      = { kwargs.foldl setAttr ((m.get_context user now).1) with updated_at := now } := by
    simp only [ContextManager.update_context, ContextManager.get_context,
      ContextManager.putCtx]
    cases hm : m.contexts user <;> simp [hm]
  refine ⟨?_, ?_, ?_, ?_⟩
  · rw [hread]
  · rw [hread]
    exact foldl_setAttr_user_id kwargs _
  · intro f hf hnone
    rw [hread]
    have hstep := foldl_setAttr_fieldEq f kwargs ((m.get_context user now).1) hnone
    have hupd : fieldEq f { kwargs.foldl setAttr ((m.get_context user now).1) with
        updated_at := now } (kwargs.foldl setAttr ((m.get_context user now).1)) := by
      cases f <;> first | rfl | exact absurd rfl hf
    exact fieldEq_trans hupd hstep
  · simp only [ContextManager.update_context]
    rw [foldl_setAttr_filter]

/-- Claim C6 (counterexample): passing work_history — not one of the four
slot names — through update_context does write it, because the code
guards setattr only with hasattr. -/
theorem claim_C6_counterexample :
    (((ContextManager.mk0.update_context "u" 5
        [CtxAssign.work_history [[("task", "x")]]]).get_context "u" 5).1).work_history
      = [[("task", "x")]]
    ∧ ([[("task", "x")]] : List PyDict) ≠ [] := by
  exact ⟨rfl, by decide⟩

/-- Witness for claim C6: updating only current_task stamps updated_at
and leaves current_field unchanged. -/
theorem claim_C6_witness :
    ((((ContextManager.mk0.update_context "u" 3
        [CtxAssign.current_task (some "防除")]).get_context "u" 3).1).updated_at = 3)
    ∧ fieldEq CtxField.current_field
        (((ContextManager.mk0.update_context "u" 3
          [CtxAssign.current_task (some "防除")]).get_context "u" 3).1)
        ((ContextManager.mk0.get_context "u" 3).1) :=
  ⟨(claim_C6_thm ContextManager.mk0 "u" 3 [CtxAssign.current_task (some "防除")]).1,
    (claim_C6_thm ContextManager.mk0 "u" 3
      [CtxAssign.current_task (some "防除")]).2.2.1 CtxField.current_field
      (by decide) (by decide)⟩

/-- Claim C7: every materials_used entry of a parsed report carries the
same dilution value — the first "<N>倍" occurrence found anywhere in the
whole normalized text (None when there is none), regardless of where the
material phrase itself matched. -/
theorem claim_C7_thm (clock : Clock) (ctx : Option PyDict) (text : String) :
    ∀ mm ∈ (parse_report clock ctx text).materials_used,
      mm.dilution = firstDilution ((AgriculturalGlossary.comprehensive_normalize text).data) := by
  intro mm hmm
  have e1 : (parse_report clock ctx text).materials_used
      = (parse_report_fields clock ctx text).materials_used :=
    materials_update (parse_report_fields clock ctx text) _
  have e2 : (parse_report_fields clock ctx text).materials_used
      = extract_materials ((AgriculturalGlossary.comprehensive_normalize text).data) := by
    simp only [parse_report_fields]
  rw [e1, e2] at hmm
  exact materials_foldr_dilution
    ((AgriculturalGlossary.comprehensive_normalize text).data) material_usage_patterns mm hmm

set_option maxHeartbeats 1000000 in
/-- Witness for claim C7: the report for "農薬を1000倍で散布" has a
materials entry 農薬 whose dilution equals the whole-text probe 1000倍. -/
theorem claim_C7_witness :
    (⟨"農薬", "農薬", some "1000倍"⟩ : Material)
        ∈ (parse_report clkSample none "農薬を1000倍で散布").materials_used
    ∧ (⟨"農薬", "農薬", some "1000倍"⟩ : Material).dilution
        = firstDilution ((AgriculturalGlossary.comprehensive_normalize "農薬を1000倍で散布").data) :=
  ⟨by decide, claim_C7_thm clkSample none "農薬を1000倍で散布" _ (by decide)⟩

/-- Claim C8: starting from a fresh manager with max_history_size 50,
adding any 60 questions leaves recent_questions holding exactly the 50
most recently added entries in insertion order (the first 10 evicted),
and add_work_to_history maintains work_history under the same
bounded-FIFO discipline with the same bound. -/
theorem claim_C8_thm (user : String) (now : Nat) (qs : List (String × String))
    (ws : List (PyDict × String)) (hq : qs.length = 60) (hw : ws.length = 60) :
    (((qs.foldl (fun acc q => acc.add_question_to_history user now q.2 q.1)
        ContextManager.mk0).get_context user now).1).recent_questions
      = (qs.map (fun q => { question := q.1, timestamp := q.2 })).drop 10
    ∧ (((qs.foldl (fun acc q => acc.add_question_to_history user now q.2 q.1)
        ContextManager.mk0).get_context user now).1).recent_questions.length = 50
    ∧ (((ws.foldl (fun acc w => acc.add_work_to_history user now w.2 w.1)
        ContextManager.mk0).get_context user now).1).work_history
      = (ws.map (fun w => pyDictSet w.1 "timestamp" w.2)).drop 10
    ∧ (((ws.foldl (fun acc w => acc.add_work_to_history user now w.2 w.1)
        ContextManager.mk0).get_context user now).1).work_history.length = 50 := by
  have hq1 := addq_fold user now qs ContextManager.mk0 rfl
    (by rw [show ((ContextManager.mk0.get_context user now).1).recent_questions = []
        from rfl]; simp)
  have hw1 := addw_fold user now ws ContextManager.mk0 rfl
    (by rw [show ((ContextManager.mk0.get_context user now).1).work_history = []
        from rfl]; simp)
  rw [show ((ContextManager.mk0.get_context user now).1).recent_questions = [] from rfl,
    List.nil_append] at hq1
  rw [show ((ContextManager.mk0.get_context user now).1).work_history = [] from rfl,
    List.nil_append] at hw1
  have hqdrop : pyLastN 50 (qs.map (fun q => ({ question := q.1, timestamp := q.2 } : QEntry)))
      = (qs.map (fun q => ({ question := q.1, timestamp := q.2 } : QEntry))).drop 10 := by
    unfold pyLastN
    rw [if_neg (by omega)]
    congr 1
    rw [List.length_map, hq]
  have hwdrop : pyLastN 50 (ws.map (fun w => pyDictSet w.1 "timestamp" w.2))
      = (ws.map (fun w => pyDictSet w.1 "timestamp" w.2)).drop 10 := by
    unfold pyLastN
    rw [if_neg (by omega)]
    congr 1
    rw [List.length_map, hw]
  refine ⟨hq1.trans hqdrop, ?_, hw1.trans hwdrop, ?_⟩
  · rw [hq1.trans hqdrop, List.length_drop, List.length_map, hq]
  · rw [hw1.trans hwdrop, List.length_drop, List.length_map, hw]

/-- Witness for claim C8: sixty concrete question and work entries. -/
theorem claim_C8_witness :
    qs60.length = 60 ∧ ws60.length = 60
    ∧ ((((qs60.foldl (fun acc q => acc.add_question_to_history "u" 0 q.2 q.1)
        ContextManager.mk0).get_context "u" 0).1).recent_questions
      = (qs60.map (fun q => { question := q.1, timestamp := q.2 })).drop 10
    ∧ (((qs60.foldl (fun acc q => acc.add_question_to_history "u" 0 q.2 q.1)
        ContextManager.mk0).get_context "u" 0).1).recent_questions.length = 50
    ∧ (((ws60.foldl (fun acc w => acc.add_work_to_history "u" 0 w.2 w.1)
        ContextManager.mk0).get_context "u" 0).1).work_history
      = (ws60.map (fun w => pyDictSet w.1 "timestamp" w.2)).drop 10
    ∧ (((ws60.foldl (fun acc w => acc.add_work_to_history "u" 0 w.2 w.1)
        ContextManager.mk0).get_context "u" 0).1).work_history.length = 50) :=
  ⟨rfl, rfl, claim_C8_thm "u" 0 qs60 ws60 rfl rfl⟩

/-- Claim C9: comprehensive_normalize is idempotent on outputs that admit
no further rewrites — if the normalized form is fixed by stripping, by
the unit, time and dilution substitution passes, and every one of its
whitespace tokens is fixed by the crop, task and material normalizers,
then normalizing again returns it unchanged. -/
theorem claim_C9_thm (x : String)
    (h : NoFurtherRewrites (AgriculturalGlossary.comprehensive_normalize x)) :
    AgriculturalGlossary.comprehensive_normalize
        (AgriculturalGlossary.comprehensive_normalize x)
      = AgriculturalGlossary.comprehensive_normalize x := by
  obtain ⟨h1, h2, h3, h4, h5⟩ := h
  generalize hy : AgriculturalGlossary.comprehensive_normalize x = y at h1 h2 h3 h4 h5
  show AgriculturalGlossary.comprehensive_normalize y = y
  simp only [AgriculturalGlossary.comprehensive_normalize, h1, strEta, h2, h3, h4]
  rw [cnStep_fix_fold (pySplit y.data) y.data h5]

/-- Witness for claim C9: "だいず" normalizes to "大豆", which admits no
further rewrites, and renormalizing is the identity on it. -/
theorem claim_C9_witness :
    NoFurtherRewrites (AgriculturalGlossary.comprehensive_normalize "だいず")
    ∧ AgriculturalGlossary.comprehensive_normalize
        (AgriculturalGlossary.comprehensive_normalize "だいず")
      = AgriculturalGlossary.comprehensive_normalize "だいず" :=
  ⟨by decide, claim_C9_thm "だいず" (by decide)⟩

/-- Claim C10: extract_quantities groups its results by pattern category
in the fixed order area, volume, weight, dilution-ratio (text order only
within a category), so whenever the normalized text has an area-category
match, parse_report's quantity_applied is the normalized form of the
first area match — even if a volume, weight or dilution quantity occurs
earlier in the text. -/
theorem claim_C10_thm (clock : Clock) (ctx : Option PyDict) (text : String) :
    extract_quantities (comprehensive_normalize text)
      = quantsOf areaQuantityRx (comprehensive_normalize text).data
        ++ quantsOf volumeQuantityRx (comprehensive_normalize text).data
        ++ quantsOf weightQuantityRx (comprehensive_normalize text).data
        ++ quantsOf dilutionQuantityRx (comprehensive_normalize text).data
    ∧ (quantsOf areaQuantityRx (comprehensive_normalize text).data ≠ [] →
        (parse_report clock ctx text).quantity_applied
          = (quantsOf areaQuantityRx (comprehensive_normalize text).data).head?.map
              (fun q => q.normalized)) := by
  have hgrp : extract_quantities (comprehensive_normalize text)
      = quantsOf areaQuantityRx (comprehensive_normalize text).data
        ++ quantsOf volumeQuantityRx (comprehensive_normalize text).data
        ++ quantsOf weightQuantityRx (comprehensive_normalize text).data
        ++ quantsOf dilutionQuantityRx (comprehensive_normalize text).data := by
    simp only [extract_quantities, quantity_patterns, List.foldr, List.append_assoc,
      List.append_nil]
  refine ⟨hgrp, ?_⟩
  intro hne
  rcases hh : quantsOf areaQuantityRx (comprehensive_normalize text).data with _ | ⟨e, es⟩
  · exact absurd hh hne
  · have e1 : (parse_report clock ctx text).quantity_applied
        = (parse_report_fields clock ctx text).quantity_applied :=
      quantity_applied_update (parse_report_fields clock ctx text) _
    have e2 : (parse_report_fields clock ctx text).quantity_applied
        = extract_quantity ((comprehensive_normalize text).data) := by
      simp only [parse_report_fields]
    have hq : extract_quantities (comprehensive_normalize text)
        = e :: (es ++ quantsOf volumeQuantityRx (comprehensive_normalize text).data
          ++ quantsOf weightQuantityRx (comprehensive_normalize text).data
          ++ quantsOf dilutionQuantityRx (comprehensive_normalize text).data) := by
      rw [hgrp, hh]
      simp [List.append_assoc]
    rw [e1, e2]
    simp only [extract_quantity, strEta, hq, hh]
    rfl

set_option maxHeartbeats 1000000 in
/-- Witness for claim C10: in "100Lと2haの作業" the volume quantity 100 L
precedes the area quantity 2 ha in the text, yet quantity_applied is the
normalized first area match. -/
theorem claim_C10_witness :
    quantsOf areaQuantityRx (comprehensive_normalize "100Lと2haの作業").data ≠ []
    ∧ (parse_report clkSample none "100Lと2haの作業").quantity_applied
        = (quantsOf areaQuantityRx
            (comprehensive_normalize "100Lと2haの作業").data).head?.map
            (fun q => q.normalized) :=
  ⟨by decide, (claim_C10_thm clkSample none "100Lと2haの作業").2 (by decide)⟩
